import Mathlib

/-!
Verification of the halolight-bff backend-service client/registry subsystem.

The definitions below are a shallow embedding of `src/services/httpClient.ts`
and the context glue in `src/context.ts`: pure functions become Lean
functions, the fetch transport is abstracted as an oracle of per-attempt
outcomes (`FetchOutcome`), JS header objects become lookup maps
(`HeaderMap`), and the mutable registry singleton becomes explicit state
passing over `RegistryState`.
-/

namespace Halolight

/-- HTTP methods supported by the client (`type HttpMethod`). -/
inductive HttpMethod
  | GET
  | POST
  | PUT
  | PATCH
  | DELETE
deriving DecidableEq, Repr

/-- The tRPC error codes the client can produce (`mapHttpStatusToTRPCCode`
return type). -/
inductive TRPCCode
  | BAD_REQUEST
  | UNAUTHORIZED
  | FORBIDDEN
  | NOT_FOUND
  | TIMEOUT
  | INTERNAL_SERVER_ERROR
deriving DecidableEq, Repr

/-- A thrown `TRPCError`: its code and human-readable message (the `cause`
field carries no behaviour and is omitted). -/
structure TRPCError where
  code : TRPCCode
  message : String
deriving DecidableEq, Repr

/-- Embedding of `mapHttpStatusToTRPCCode` (httpClient.ts lines 65-83). -/
def mapHttpStatusToTRPCCode (status : Nat) : TRPCCode :=
  match status with
  | 400 => TRPCCode.BAD_REQUEST
  | 401 => TRPCCode.UNAUTHORIZED
  | 403 => TRPCCode.FORBIDDEN
  | 404 => TRPCCode.NOT_FOUND
  | 408 => TRPCCode.TIMEOUT
  | 504 => TRPCCode.TIMEOUT
  | _ => TRPCCode.INTERNAL_SERVER_ERROR

/-- The parsed response body as `doFetch` sees it: either a JSON value (of
which only the optional string-valued `message` and `error` fields are
behaviourally relevant; a JSON value lacking both fields, e.g. a number or
an object without them, is `json none none`) or a plain-text body. -/
inductive ParsedBody
  | json (message : Option String) (error : Option String)
  | text (raw : String)
deriving DecidableEq, Repr

/-- JS `a || b` for an optional string `a`: the empty string is falsy. -/
def jsStringOr (o : Option String) (alt : String) : String :=
  match o with
  | some s => if s = "" then alt else s
  | none => alt

/-- The error-message selection of `doFetch` for a non-2xx response
(httpClient.ts lines 154-158): a text body is used verbatim; for a JSON
body, `message || error || fallback` with JS string falsiness. -/
def errorMessage (status : Nat) (body : ParsedBody) : String :=
  match body with
  | ParsedBody.text raw => raw
  | ParsedBody.json msg err =>
      jsStringOr msg (jsStringOr err ("Request failed with status " ++ toString status))

/-- `Response.ok`: status in the inclusive range 200-299. -/
def statusOk (status : Nat) : Bool :=
  decide (200 ≤ status) && decide (status ≤ 299)

/-- Abstract outcome of one `fetch` attempt: a response (with status, parsed
body, and whether the body passes the caller-supplied schema, relevant only
when a schema was supplied), an abort of the in-flight call by the
client-side deadline timer (surfaced by fetch as an `AbortError`), or any
other transport exception with its message. -/
inductive FetchOutcome
  | response (status : Nat) (body : ParsedBody) (validates : Bool)
  | abortError
  | transportError (message : String)
deriving DecidableEq, Repr

/-- Embedding of one attempt, `doFetch` (httpClient.ts lines 107-202):
non-2xx status throws a `TRPCError` with the mapped code and selected
message; an aborted request throws TIMEOUT; a schema-validation failure
throws INTERNAL_SERVER_ERROR; any other exception throws
INTERNAL_SERVER_ERROR with the exception's message. -/
def doFetch (hasSchema : Bool) (outcome : FetchOutcome) : Except TRPCError ParsedBody :=
  match outcome with
  | FetchOutcome.response status body validates =>
      if !statusOk status then
        Except.error ⟨mapHttpStatusToTRPCCode status, errorMessage status body⟩
      else if hasSchema && !validates then
        Except.error ⟨TRPCCode.INTERNAL_SERVER_ERROR, "Response validation failed"⟩
      else
        Except.ok body
  | FetchOutcome.abortError =>
      Except.error ⟨TRPCCode.TIMEOUT, "Request timed out"⟩
  | FetchOutcome.transportError msg =>
      Except.error ⟨TRPCCode.INTERNAL_SERVER_ERROR, msg⟩

/-- C2: error classification of a single attempt. Status 400/401/403/404
map to bad-request/unauthorized/forbidden/not-found, 408 and 504 map to
timeout, any other non-2xx status maps to internal; a non-2xx response
throws exactly the mapped code with the selected message; deadline expiry
(abort) always yields timeout, never internal; a response-schema validation
failure and any other transport exception yield internal; and the non-2xx
message is the JSON body's `message` field, else its `error` field, else
the raw text body, else the generic "Request failed with status N"
fallback. -/
theorem C2_error_classification :
    (mapHttpStatusToTRPCCode 400 = TRPCCode.BAD_REQUEST ∧
     mapHttpStatusToTRPCCode 401 = TRPCCode.UNAUTHORIZED ∧
     mapHttpStatusToTRPCCode 403 = TRPCCode.FORBIDDEN ∧
     mapHttpStatusToTRPCCode 404 = TRPCCode.NOT_FOUND ∧
     mapHttpStatusToTRPCCode 408 = TRPCCode.TIMEOUT ∧
     mapHttpStatusToTRPCCode 504 = TRPCCode.TIMEOUT) ∧
    (∀ status : Nat, status ∉ ([400, 401, 403, 404, 408, 504] : List Nat) →
       mapHttpStatusToTRPCCode status = TRPCCode.INTERNAL_SERVER_ERROR) ∧
    (∀ (hasSchema : Bool) (status : Nat) (body : ParsedBody) (validates : Bool),
       statusOk status = false →
       doFetch hasSchema (FetchOutcome.response status body validates) =
         Except.error ⟨mapHttpStatusToTRPCCode status, errorMessage status body⟩) ∧
    (∀ hasSchema : Bool,
       doFetch hasSchema FetchOutcome.abortError =
         Except.error ⟨TRPCCode.TIMEOUT, "Request timed out"⟩) ∧
    (∀ (status : Nat) (body : ParsedBody),
       statusOk status = true →
       doFetch true (FetchOutcome.response status body false) =
         Except.error ⟨TRPCCode.INTERNAL_SERVER_ERROR, "Response validation failed"⟩) ∧
    (∀ (hasSchema : Bool) (msg : String),
       doFetch hasSchema (FetchOutcome.transportError msg) =
         Except.error ⟨TRPCCode.INTERNAL_SERVER_ERROR, msg⟩) ∧
    (∀ (status : Nat) (m : String) (err : Option String), m ≠ "" →
       errorMessage status (ParsedBody.json (some m) err) = m) ∧
    (∀ (status : Nat) (e : String), e ≠ "" →
       errorMessage status (ParsedBody.json none (some e)) = e) ∧
    (∀ status : Nat,
       errorMessage status (ParsedBody.json none none) =
         "Request failed with status " ++ toString status) ∧
    (∀ (status : Nat) (raw : String),
       errorMessage status (ParsedBody.text raw) = raw) := by
  refine ⟨⟨rfl, rfl, rfl, rfl, rfl, rfl⟩, ?_, ?_, ?_, ?_, ?_, ?_, ?_, ?_, ?_⟩
  · intro status hmem
    simp only [List.mem_cons, List.not_mem_nil, or_false, not_or] at hmem
    obtain ⟨h400, h401, h403, h404, h408, h504⟩ := hmem
    unfold mapHttpStatusToTRPCCode
    repeat' split
    all_goals simp_all
  · intro hasSchema status body validates hbad
    simp [doFetch, hbad]
  · intro hasSchema
    rfl
  · intro status body hok
    simp [doFetch, hok]
  · intro hasSchema msg
    rfl
  · intro status m err hm
    simp [errorMessage, jsStringOr, hm]
  · intro status e he
    simp [errorMessage, jsStringOr, he]
  · intro status
    rfl
  · intro status raw
    rfl

/-- Whether a failed attempt's error code allows a retry (`isRetryable` in
`request`, httpClient.ts lines 219-221): only TIMEOUT and
INTERNAL_SERVER_ERROR are retryable. -/
def isRetryable (e : TRPCError) : Bool :=
  match e.code with
  | TRPCCode.TIMEOUT => true
  | TRPCCode.INTERNAL_SERVER_ERROR => true
  | _ => false

/-- Whether the HTTP method allows automatic retries (`isIdempotent` in
`request`, httpClient.ts line 218): GET, PUT and DELETE only. -/
def isIdempotent (method : HttpMethod) : Bool :=
  match method with
  | HttpMethod.GET => true
  | HttpMethod.PUT => true
  | HttpMethod.DELETE => true
  | _ => false

/-- Backoff slept after the failed attempt numbered `attempt` (1-based),
before the next attempt (httpClient.ts line 227):
`Math.min(100 * Math.pow(2, attempt - 1), 2000)`. -/
def backoffMs (attempt : Nat) : Nat :=
  min (100 * 2 ^ (attempt - 1)) 2000

instance instDecEqExcept {α β : Type} [DecidableEq α] [DecidableEq β] :
    DecidableEq (Except α β) := fun a b =>
  match a, b with
  | Except.ok x, Except.ok y =>
      if h : x = y then isTrue (by rw [h])
      else isFalse (by intro hc; injection hc; contradiction)
  | Except.error x, Except.error y =>
      if h : x = y then isTrue (by rw [h])
      else isFalse (by intro hc; injection hc; contradiction)
  | Except.ok _, Except.error _ => isFalse (by intro hc; injection hc)
  | Except.error _, Except.ok _ => isFalse (by intro hc; injection hc)

/-- Observable behaviour of one `request` call: the value returned or error
thrown, the number of single-attempt executions of `doFetch`, and the list
of backoff delays slept between attempts (in order; `sleeps.get (N-2)` is
the delay before attempt `N`). -/
structure RequestResult where
  result : Except TRPCError ParsedBody
  attemptsMade : Nat
  sleeps : List Nat
deriving DecidableEq, Repr

/-- The retry loop of `request` (httpClient.ts lines 211-230), recursing on
the number of attempts still allowed (`remaining = maxAttempts - attempt + 1`;
`remaining = 1` is the last allowed attempt). The `remaining = 0` case is
unreachable because `maxAttempts ≥ 1`. -/
def requestAux (hasSchema : Bool) (method : HttpMethod) (outcomes : Nat → FetchOutcome)
    (attempt : Nat) : Nat → RequestResult
  | 0 => ⟨Except.error ⟨TRPCCode.INTERNAL_SERVER_ERROR, "unreachable"⟩, 0, []⟩
  | remaining + 1 =>
      match doFetch hasSchema (outcomes attempt) with
      | Except.ok value => ⟨Except.ok value, 1, []⟩
      | Except.error e =>
          if (remaining == 0) || !isRetryable e || !isIdempotent method then
            ⟨Except.error e, 1, []⟩
          else
            let rest := requestAux hasSchema method outcomes (attempt + 1) remaining
            ⟨rest.result, rest.attemptsMade + 1, backoffMs attempt :: rest.sleeps⟩

/-- Embedding of `request` (httpClient.ts lines 204-233). `retriesOpt` is
the per-call `options.retries`, `clientRetries` the client default;
`maxAttempts = (options.retries ?? retries) + 1`. The attempt numbered `i`
observes the transport outcome `outcomes i`. -/
def request (hasSchema : Bool) (retriesOpt : Option Nat) (clientRetries : Nat)
    (method : HttpMethod) (outcomes : Nat → FetchOutcome) : RequestResult :=
  requestAux hasSchema method outcomes 1 (retriesOpt.getD clientRetries + 1)

/-- True when the attempt outcome produces an error whose kind allows a
retry (timeout or internal). -/
def retriesOn (hasSchema : Bool) (outcome : FetchOutcome) : Bool :=
  match doFetch hasSchema outcome with
  | Except.ok _ => false
  | Except.error e => isRetryable e

/-- When every attempt fails with a retryable kind and the method is
idempotent, the loop runs all allowed attempts, sleeping the exponential
backoff after each failed attempt, and ends with the last attempt's
error. -/
theorem requestAux_all_fail (hasSchema : Bool) (method : HttpMethod)
    (outcomes : Nat → FetchOutcome)
    (hidem : isIdempotent method = true)
    (hfail : ∀ i, retriesOn hasSchema (outcomes i) = true) :
    ∀ rem attempt, requestAux hasSchema method outcomes attempt (rem + 1) =
      ⟨doFetch hasSchema (outcomes (attempt + rem)), rem + 1,
       (List.range rem).map (fun k => backoffMs (attempt + k))⟩ := by
  intro rem
  induction rem with
  | zero =>
      intro attempt
      have h := hfail attempt
      unfold retriesOn at h
      unfold requestAux
      cases hdo : doFetch hasSchema (outcomes attempt) with
      | ok value => rw [hdo] at h; simp at h
      | error e => simp [hdo]
  | succ n ih =>
      intro attempt
      have h := hfail attempt
      unfold retriesOn at h
      unfold requestAux
      cases hdo : doFetch hasSchema (outcomes attempt) with
      | ok value => rw [hdo] at h; simp at h
      | error e =>
          rw [hdo] at h
          have h' : isRetryable e = true := h
          have hcond : ((n + 1 == 0) || !isRetryable e || !isIdempotent method) = false := by
            simp [h', hidem]
          simp only [hdo, hcond, Bool.false_eq_true, if_false]
          rw [ih (attempt + 1)]
          have hidx : attempt + 1 + n = attempt + (n + 1) := by omega
          have hfun : (fun k => backoffMs (attempt + 1 + k)) =
              ((fun k => backoffMs (attempt + k)) ∘ Nat.succ) := by
            funext k
            simp only [Function.comp_apply, Nat.succ_eq_add_one]
            congr 1
            omega
          rw [hidx, List.range_succ_eq_map, List.map_cons, Nat.add_zero, List.map_map, hfun]
          simp

/-- A per-call retry count of 0 gives exactly one attempt whose outcome is
returned or rethrown unchanged, with no backoff sleeps. -/
theorem request_zero_retries (hasSchema : Bool) (clientRetries : Nat)
    (method : HttpMethod) (outcomes : Nat → FetchOutcome) :
    request hasSchema (some 0) clientRetries method outcomes =
      ⟨doFetch hasSchema (outcomes 1), 1, []⟩ := by
  unfold request requestAux
  simp only [Option.getD_some]
  cases hdo : doFetch hasSchema (outcomes 1) with
  | ok value => simp [hdo]
  | error e => simp [hdo]

/-- C1: retry policy of `request`. With per-call retry count `r`, the
number of single-attempt executions is `r + 1` when the method is
idempotent (GET, PUT, DELETE) and every attempt fails with a retryable kind
(timeout or internal), with the delay before attempt `N` (the `N-2`-nd
entry of `sleeps`) equal to `min(100 * 2^(N-2), 2000)` ms and the last
attempt's error rethrown unchanged; exactly one attempt is executed when
the method is POST or PATCH, or the first failure's kind is non-retryable
(bad-request/unauthorized/forbidden/not-found), or `r = 0`; and an absent
per-call retry count falls back to the client default. Attempts are
strictly sequential by construction of `requestAux`. -/
theorem C1_retry_policy :
    (∀ (hasSchema : Bool) (r clientRetries : Nat) (method : HttpMethod)
       (outcomes : Nat → FetchOutcome),
       isIdempotent method = true →
       (∀ i, retriesOn hasSchema (outcomes i) = true) →
       request hasSchema (some r) clientRetries method outcomes =
         ⟨doFetch hasSchema (outcomes (r + 1)), r + 1,
          (List.range r).map (fun k => min (100 * 2 ^ k) 2000)⟩) ∧
    (∀ (hasSchema : Bool) (r clientRetries : Nat) (method : HttpMethod)
       (outcomes : Nat → FetchOutcome),
       (method = HttpMethod.POST ∨ method = HttpMethod.PATCH) →
       request hasSchema (some r) clientRetries method outcomes =
         ⟨doFetch hasSchema (outcomes 1), 1, []⟩) ∧
    (∀ (hasSchema : Bool) (r clientRetries : Nat) (method : HttpMethod)
       (outcomes : Nat → FetchOutcome) (e : TRPCError),
       doFetch hasSchema (outcomes 1) = Except.error e →
       isRetryable e = false →
       request hasSchema (some r) clientRetries method outcomes =
         ⟨Except.error e, 1, []⟩) ∧
    (∀ (hasSchema : Bool) (clientRetries : Nat) (method : HttpMethod)
       (outcomes : Nat → FetchOutcome),
       request hasSchema (some 0) clientRetries method outcomes =
         ⟨doFetch hasSchema (outcomes 1), 1, []⟩) ∧
    (∀ (hasSchema : Bool) (clientRetries : Nat) (method : HttpMethod)
       (outcomes : Nat → FetchOutcome),
       request hasSchema none clientRetries method outcomes =
         request hasSchema (some clientRetries) clientRetries method outcomes) := by
  refine ⟨?_, ?_, ?_, ?_, ?_⟩
  · intro hasSchema r clientRetries method outcomes hidem hfail
    unfold request
    simp only [Option.getD_some]
    rw [requestAux_all_fail hasSchema method outcomes hidem hfail r 1]
    have h1 : (1 : Nat) + r = r + 1 := Nat.add_comm 1 r
    have hfun : (fun k => backoffMs (1 + k)) = (fun k : Nat => min (100 * 2 ^ k) 2000) := by
      funext k
      simp [backoffMs, Nat.add_sub_cancel_left]
    rw [h1, hfun]
  · intro hasSchema r clientRetries method outcomes hm
    have hid : isIdempotent method = false := by
      cases hm with
      | inl h => rw [h]; rfl
      | inr h => rw [h]; rfl
    unfold request requestAux
    simp only [Option.getD_some]
    cases hdo : doFetch hasSchema (outcomes 1) with
    | ok value => simp [hdo]
    | error e => simp [hdo, hid]
  · intro hasSchema r clientRetries method outcomes e hdo hret
    unfold request requestAux
    simp only [Option.getD_some]
    simp [hdo, hret]
  · intro hasSchema clientRetries method outcomes
    exact request_zero_retries hasSchema clientRetries method outcomes
  · intro hasSchema clientRetries method outcomes
    rfl

/-- Concrete instance of C1: a GET with retries 2 that times out on every
attempt runs 3 attempts with backoffs 100ms then 200ms and rethrows the
timeout; a POST with the same failing transport runs exactly 1 attempt; a
GET answered 404 runs exactly 1 attempt; retries 0 runs exactly 1
attempt. -/
theorem C1_retry_policy_witness :
    request false (some 2) 2 HttpMethod.GET (fun _ => FetchOutcome.abortError) =
      ⟨Except.error ⟨TRPCCode.TIMEOUT, "Request timed out"⟩, 3, [100, 200]⟩ ∧
    request false (some 2) 2 HttpMethod.POST (fun _ => FetchOutcome.abortError) =
      ⟨Except.error ⟨TRPCCode.TIMEOUT, "Request timed out"⟩, 1, []⟩ ∧
    request false (some 2) 2 HttpMethod.GET
        (fun _ => FetchOutcome.response 404 (ParsedBody.json none none) true) =
      ⟨Except.error ⟨TRPCCode.NOT_FOUND, "Request failed with status 404"⟩, 1, []⟩ ∧
    request false (some 0) 2 HttpMethod.GET (fun _ => FetchOutcome.abortError) =
      ⟨Except.error ⟨TRPCCode.TIMEOUT, "Request timed out"⟩, 1, []⟩ := by
  refine ⟨?_, ?_, ?_, ?_⟩
  · have h := C1_retry_policy.1 false 2 2 HttpMethod.GET (fun _ => FetchOutcome.abortError)
      rfl (fun _ => rfl)
    rw [h]
    rfl
  · have h := C1_retry_policy.2.1 false 2 2 HttpMethod.POST (fun _ => FetchOutcome.abortError)
      (Or.inl rfl)
    rw [h]
    rfl
  · exact C1_retry_policy.2.2.1 false 2 2 HttpMethod.GET
      (fun _ => FetchOutcome.response 404 (ParsedBody.json none none) true)
      ⟨TRPCCode.NOT_FOUND, "Request failed with status 404"⟩ rfl rfl
  · exact C1_retry_policy.2.2.2.1 false 2 HttpMethod.GET (fun _ => FetchOutcome.abortError)

/-- Concrete instance of C2: an HTTP 500 with a bodyless JSON object yields
an internal error with the generic fallback message, and 408 maps to
timeout while the other listed statuses map to their stated kinds. -/
theorem C2_error_classification_witness :
    doFetch false (FetchOutcome.response 500 (ParsedBody.json none none) true) =
      Except.error ⟨TRPCCode.INTERNAL_SERVER_ERROR, "Request failed with status 500"⟩ ∧
    mapHttpStatusToTRPCCode 500 = TRPCCode.INTERNAL_SERVER_ERROR ∧
    errorMessage 502 (ParsedBody.json (some "upstream down") none) = "upstream down" := by
  refine ⟨?_, ?_, ?_⟩
  · have h := C2_error_classification.2.2.1 false 500 (ParsedBody.json none none) true (by decide)
    rw [h]
    rfl
  · exact C2_error_classification.2.1 500 (by decide)
  · exact C2_error_classification.2.2.2.2.2.2.1 502 "upstream down" none (by decide)

/-- A JS header object, modelled by its lookup function (key to value). -/
def HeaderMap : Type := String → Option String

/-- The empty header object. -/
def emptyHeaders : HeaderMap := fun _ => none

/-- JS property assignment `m[k] = v` / object-literal entry. -/
def hset (m : HeaderMap) (k v : String) : HeaderMap :=
  fun key => if key = k then some v else m key

/-- JS object spread `{...m1, ...m2}`: entries of `m2` override entries of
`m1` on key collision. -/
def hmerge (m1 m2 : HeaderMap) : HeaderMap :=
  fun key =>
    match m2 key with
    | some v => some v
    | none => m1 key

/-- Embedding of the header composition of `doFetch` (httpClient.ts lines
125-139): the object literal starts with the `Content-Type`/`Accept`
baseline, spreads the client `defaultHeaders` over it, then the per-call
`headers`; afterwards `Authorization` is assigned when a (truthy) token is
present, and `X-Trace-Id`/`X-Request-Id` are assigned when a (truthy) trace
id is present. -/
def requestHeaders (defaultHeaders headers : HeaderMap)
    (token traceId : Option String) : HeaderMap :=
  let base := hset (hset emptyHeaders "Content-Type" "application/json")
    "Accept" "application/json"
  let merged := hmerge (hmerge base defaultHeaders) headers
  let withAuth :=
    match token with
    | some t => if t = "" then merged else hset merged "Authorization" ("Bearer " ++ t)
    | none => merged
  match traceId with
  | some tr =>
      if tr = "" then withAuth
      else hset (hset withAuth "X-Trace-Id" tr) "X-Request-Id" tr
  | none => withAuth

/-- Modelled from the spec wording of claim C3, for comparison with
`requestHeaders`: client defaults first, then per-call headers, then the
`Content-Type`/`Accept` baseline applied last (overriding on collision),
then `Authorization`, then the trace headers. -/
def specOrderRequestHeaders (defaultHeaders headers : HeaderMap)
    (token traceId : Option String) : HeaderMap :=
  let merged := hmerge defaultHeaders headers
  let withBase := hset (hset merged "Content-Type" "application/json")
    "Accept" "application/json"
  let withAuth :=
    match token with
    | some t => if t = "" then withBase else hset withBase "Authorization" ("Bearer " ++ t)
    | none => withBase
  match traceId with
  | some tr =>
      if tr = "" then withAuth
      else hset (hset withAuth "X-Trace-Id" tr) "X-Request-Id" tr
  | none => withAuth

/-- C3 counterexample: with no client defaults and a per-call
`Content-Type: text/plain` header, the code lets the per-call header win
over the baseline (`text/plain` survives), while the claim's stated merge
order — baseline applied after per-call headers — would make
`application/json` survive. -/
theorem C3_header_composition_counterexample :
    requestHeaders emptyHeaders (hset emptyHeaders "Content-Type" "text/plain")
        none none "Content-Type" = some "text/plain" ∧
    specOrderRequestHeaders emptyHeaders (hset emptyHeaders "Content-Type" "text/plain")
        none none "Content-Type" = some "application/json" ∧
    some "text/plain" ≠ some "application/json" := by
  refine ⟨rfl, rfl, by decide⟩

/-- C3 as amended: the outgoing header map is the merge of the
`Content-Type`/`Accept` baseline first, then the client default headers
(overriding the baseline on collision), then the per-call headers
(overriding both), then `Authorization: Bearer <token>` when a token is
present, then `X-Trace-Id`/`X-Request-Id` both set to the trace id when a
trace id is present. -/
theorem C3_header_composition :
    (∀ (dh h : HeaderMap) (token traceId : Option String) (k v : String),
       h k = some v → k ≠ "Authorization" → k ≠ "X-Trace-Id" → k ≠ "X-Request-Id" →
       requestHeaders dh h token traceId k = some v) ∧
    (∀ (dh h : HeaderMap) (token traceId : Option String) (k v : String),
       h k = none → dh k = some v →
       k ≠ "Authorization" → k ≠ "X-Trace-Id" → k ≠ "X-Request-Id" →
       requestHeaders dh h token traceId k = some v) ∧
    (∀ (dh h : HeaderMap) (token traceId : Option String),
       h "Content-Type" = none → dh "Content-Type" = none →
       requestHeaders dh h token traceId "Content-Type" = some "application/json") ∧
    (∀ (dh h : HeaderMap) (token traceId : Option String),
       h "Accept" = none → dh "Accept" = none →
       requestHeaders dh h token traceId "Accept" = some "application/json") ∧
    (∀ (dh h : HeaderMap) (traceId : Option String) (t : String), t ≠ "" →
       requestHeaders dh h (some t) traceId "Authorization" =
         some ("Bearer " ++ t)) ∧
    (∀ (dh h : HeaderMap) (token : Option String) (tr : String), tr ≠ "" →
       requestHeaders dh h token (some tr) "X-Trace-Id" = some tr ∧
       requestHeaders dh h token (some tr) "X-Request-Id" = some tr) := by
  refine ⟨?_, ?_, ?_, ?_, ?_, ?_⟩
  · intro dh h token traceId k v hk hka hkt hkr
    unfold requestHeaders hmerge hset
    cases token with
    | none =>
        cases traceId with
        | none => simp [hk]
        | some tr =>
            by_cases htr : tr = "" <;> simp [htr, hkt, hkr, hk]
    | some t =>
        by_cases ht : t = "" <;>
          cases traceId with
          | none => simp [ht, hka, hk]
          | some tr =>
              by_cases htr : tr = "" <;> simp [ht, htr, hka, hkt, hkr, hk]
  · intro dh h token traceId k v hk hdk hka hkt hkr
    unfold requestHeaders hmerge hset
    cases token with
    | none =>
        cases traceId with
        | none => simp [hk, hdk]
        | some tr =>
            by_cases htr : tr = "" <;> simp [htr, hkt, hkr, hk, hdk]
    | some t =>
        by_cases ht : t = "" <;>
          cases traceId with
          | none => simp [ht, hka, hk, hdk]
          | some tr =>
              by_cases htr : tr = "" <;> simp [ht, htr, hka, hkt, hkr, hk, hdk]
  · intro dh h token traceId hk hdk
    unfold requestHeaders hmerge hset emptyHeaders
    cases token with
    | none =>
        cases traceId with
        | none => simp [hk, hdk]
        | some tr =>
            by_cases htr : tr = "" <;> simp [htr, hk, hdk]
    | some t =>
        by_cases ht : t = "" <;>
          cases traceId with
          | none => simp [ht, hk, hdk]
          | some tr =>
              by_cases htr : tr = "" <;> simp [ht, htr, hk, hdk]
  · intro dh h token traceId hk hdk
    unfold requestHeaders hmerge hset emptyHeaders
    cases token with
    | none =>
        cases traceId with
        | none => simp [hk, hdk]
        | some tr =>
            by_cases htr : tr = "" <;> simp [htr, hk, hdk]
    | some t =>
        by_cases ht : t = "" <;>
          cases traceId with
          | none => simp [ht, hk, hdk]
          | some tr =>
              by_cases htr : tr = "" <;> simp [ht, htr, hk, hdk]
  · intro dh h traceId t ht
    unfold requestHeaders hmerge hset
    cases traceId with
    | none => simp [ht]
    | some tr =>
        by_cases htr : tr = "" <;> simp [ht, htr]
  · intro dh h token tr htr
    unfold requestHeaders hmerge hset
    cases token with
    | none => constructor <;> simp [htr]
    | some t =>
        by_cases ht : t = "" <;> constructor <;> simp [ht, htr]

/-- Concrete instance of the amended C3: per-call `Content-Type` wins, a
client default `X-Api-Key` survives, the baseline fills `Accept`, and token
plus trace id produce the auth and trace headers. -/
theorem C3_header_composition_witness :
    requestHeaders (hset emptyHeaders "X-Api-Key" "k1")
        (hset emptyHeaders "Content-Type" "text/plain")
        (some "tok") (some "tr-1") "Content-Type" = some "text/plain" ∧
    requestHeaders (hset emptyHeaders "X-Api-Key" "k1")
        (hset emptyHeaders "Content-Type" "text/plain")
        (some "tok") (some "tr-1") "X-Api-Key" = some "k1" ∧
    requestHeaders (hset emptyHeaders "X-Api-Key" "k1")
        (hset emptyHeaders "Content-Type" "text/plain")
        (some "tok") (some "tr-1") "Accept" = some "application/json" ∧
    requestHeaders (hset emptyHeaders "X-Api-Key" "k1")
        (hset emptyHeaders "Content-Type" "text/plain")
        (some "tok") (some "tr-1") "Authorization" = some "Bearer tok" ∧
    requestHeaders (hset emptyHeaders "X-Api-Key" "k1")
        (hset emptyHeaders "Content-Type" "text/plain")
        (some "tok") (some "tr-1") "X-Request-Id" = some "tr-1" := by
  refine ⟨?_, ?_, ?_, ?_, ?_⟩
  · exact C3_header_composition.1 (hset emptyHeaders "X-Api-Key" "k1")
      (hset emptyHeaders "Content-Type" "text/plain") (some "tok") (some "tr-1")
      "Content-Type" "text/plain" rfl (by decide) (by decide) (by decide)
  · exact C3_header_composition.2.1 (hset emptyHeaders "X-Api-Key" "k1")
      (hset emptyHeaders "Content-Type" "text/plain") (some "tok") (some "tr-1")
      "X-Api-Key" "k1" rfl rfl (by decide) (by decide) (by decide)
  · exact C3_header_composition.2.2.2.1 (hset emptyHeaders "X-Api-Key" "k1")
      (hset emptyHeaders "Content-Type" "text/plain") (some "tok") (some "tr-1")
      rfl rfl
  · exact C3_header_composition.2.2.2.2.1 (hset emptyHeaders "X-Api-Key" "k1")
      (hset emptyHeaders "Content-Type" "text/plain") (some "tr-1") "tok" (by decide)
  · exact (C3_header_composition.2.2.2.2.2 (hset emptyHeaders "X-Api-Key" "k1")
      (hset emptyHeaders "Content-Type" "text/plain") (some "tok") "tr-1" (by decide)).2

/-- Embedding of the `defaultHeaders` object built by `createContext`'s
`ctx.services.get` / `ctx.services.getDefault` (context.ts lines 113-130):
`{ X-Trace-Id: traceId, ...(token ? { Authorization: Bearer token } : {}) }`. -/
def contextDefaultHeaders (token : Option String) (traceId : String) : HeaderMap :=
  let base := hset emptyHeaders "X-Trace-Id" traceId
  match token with
  | some t => if t = "" then base else hset base "Authorization" ("Bearer " ++ t)
  | none => base

/-- Headers of a request issued by a router through a client obtained from
`ctx.services`: the client's `defaultHeaders` are the context-built ones,
and the router passes neither `token` nor `traceId` in the per-call
options, so `doFetch`'s own token/trace branches do not fire. -/
def routerCallHeaders (token : Option String) (traceId : String)
    (perCall : HeaderMap) : HeaderMap :=
  requestHeaders (contextDefaultHeaders token traceId) perCall none none

/-- C4 counterexample: a request through a context-configured client with
token "tok" and trace id "tr-1" carries `X-Trace-Id: tr-1` but no
`X-Request-Id` header at all — the context glue only pre-configures
`X-Trace-Id` (and `Authorization`), while the claim requires both trace
headers to be present with the identical value. -/
theorem C4_context_client_headers_counterexample :
    routerCallHeaders (some "tok") "tr-1" emptyHeaders "X-Request-Id" = none ∧
    routerCallHeaders (some "tok") "tr-1" emptyHeaders "X-Trace-Id" = some "tr-1" ∧
    routerCallHeaders (some "tok") "tr-1" emptyHeaders "Authorization" =
      some "Bearer tok" := by
  refine ⟨rfl, rfl, rfl⟩

/-- C4 as amended: for every request issued through a client obtained from
the per-request context, the outgoing call carries
`Authorization: Bearer <token>` whenever the context holds a (non-empty)
token, and carries `X-Trace-Id` set to the context trace id — both without
the router supplying them (the per-call headers leave those keys unset) —
but it does not carry `X-Request-Id`: that header is only produced when a
per-call `traceId` option is supplied, which routers do not do. -/
theorem C4_context_client_headers :
    (∀ (t traceId : String) (perCall : HeaderMap), t ≠ "" →
       perCall "Authorization" = none →
       routerCallHeaders (some t) traceId perCall "Authorization" =
         some ("Bearer " ++ t)) ∧
    (∀ (token : Option String) (traceId : String) (perCall : HeaderMap),
       perCall "X-Trace-Id" = none →
       routerCallHeaders token traceId perCall "X-Trace-Id" = some traceId) ∧
    (∀ (token : Option String) (traceId : String) (perCall : HeaderMap),
       perCall "X-Request-Id" = none →
       routerCallHeaders token traceId perCall "X-Request-Id" = none) := by
  refine ⟨?_, ?_, ?_⟩
  · intro t traceId perCall ht hpc
    unfold routerCallHeaders requestHeaders contextDefaultHeaders hmerge hset emptyHeaders
    simp [ht, hpc]
  · intro token traceId perCall hpc
    unfold routerCallHeaders requestHeaders contextDefaultHeaders hmerge hset emptyHeaders
    cases token with
    | none => simp [hpc]
    | some t => by_cases ht : t = "" <;> simp [ht, hpc]
  · intro token traceId perCall hpc
    unfold routerCallHeaders requestHeaders contextDefaultHeaders hmerge hset emptyHeaders
    cases token with
    | none => simp [hpc]
    | some t => by_cases ht : t = "" <;> simp [ht, hpc]

/-- Concrete instance of the amended C4: with token "tok" and trace id
"tr-1" and no per-call headers, the outgoing call carries the auth header
and `X-Trace-Id` but no `X-Request-Id`. -/
theorem C4_context_client_headers_witness :
    routerCallHeaders (some "tok") "tr-1" emptyHeaders "Authorization" =
      some "Bearer tok" ∧
    routerCallHeaders (some "tok") "tr-1" emptyHeaders "X-Trace-Id" = some "tr-1" ∧
    routerCallHeaders (some "tok") "tr-1" emptyHeaders "X-Request-Id" = none := by
  refine ⟨?_, ?_, ?_⟩
  · exact C4_context_client_headers.1 "tok" "tr-1" emptyHeaders (by decide) rfl
  · exact C4_context_client_headers.2.1 (some "tok") "tr-1" emptyHeaders rfl
  · exact C4_context_client_headers.2.2 (some "tok") "tr-1" emptyHeaders rfl

/-- JS `s.endsWith('/')`: the last character is a slash. -/
def endsWithSlash (s : String) : Bool :=
  s.data.getLast? = some '/'

/-- JS `p.startsWith('/')`: the first character is a slash. -/
def startsWithSlash (s : String) : Bool :=
  s.data.head? = some '/'

/-- JS `baseUrl.endsWith('/') ? baseUrl.slice(0, -1) : baseUrl`
(httpClient.ts line 92). -/
def stripTrailingSlash (s : String) : String :=
  if endsWithSlash s then String.mk s.data.dropLast else s

/-- JS `path.startsWith('/') ? path : '/' + path` (httpClient.ts line 93). -/
def ensureLeadingSlash (p : String) : String :=
  if startsWithSlash p then p else "/" ++ p

/-- A primitive query value (`string | number | boolean`); `String(value)`
is its JS string coercion. -/
inductive QueryValue
  | str (s : String)
  | num (n : Int)
  | boolean (b : Bool)
deriving DecidableEq, Repr

/-- JS `String(value)` on a query primitive. -/
def QueryValue.asString : QueryValue → String
  | QueryValue.str s => s
  | QueryValue.num n => toString n
  | QueryValue.boolean b => if b then "true" else "false"

/-- The query string appended by `buildUrl` (httpClient.ts lines 96-102):
entries whose value is `undefined` (`none`) are omitted, the rest are set
as `key=String(value)` in order. `URLSearchParams` percent-encoding is not
modelled; the claims use values that need no encoding. -/
def renderQuery (query : List (String × Option QueryValue)) : String :=
  let pairs := query.filterMap
    (fun kv => kv.2.map (fun v => kv.1 ++ "=" ++ QueryValue.asString v))
  if pairs.isEmpty then "" else "?" ++ String.intercalate "&" pairs

/-- Embedding of `buildUrl` (httpClient.ts lines 91-105): strip one
trailing slash from the base, ensure one leading slash on the path,
concatenate, and append the rendered query. `new URL(...).toString()` is
modelled as the identity on the already-absolute URL string. -/
def buildUrl (baseUrl path : String) (query : List (String × Option QueryValue)) : String :=
  stripTrailingSlash baseUrl ++ ensureLeadingSlash path ++ renderQuery query

/-- Appending a slash makes `endsWithSlash` true. -/
theorem endsWithSlash_append_slash (s : String) : endsWithSlash (s ++ "/") = true := by
  unfold endsWithSlash
  rw [String.data_append s "/"]
  simp [List.getLast?_concat]

/-- Stripping the trailing slash of `s ++ "/"` gives back `s`. -/
theorem stripTrailingSlash_append_slash (s : String) :
    stripTrailingSlash (s ++ "/") = s := by
  unfold stripTrailingSlash
  rw [endsWithSlash_append_slash, if_pos rfl]
  rw [String.data_append s "/"]
  show String.mk ((s.data ++ ['/']).dropLast) = s
  rw [List.dropLast_concat]

/-- Prepending a slash makes `startsWithSlash` true. -/
theorem startsWithSlash_cons_slash (p : String) : startsWithSlash ("/" ++ p) = true := by
  unfold startsWithSlash
  rw [String.data_append "/" p]
  rfl

/-- C5: URL construction. For a base without a trailing slash and a path
without a leading slash, all four slash combinations join with exactly one
slash between base and path; the concrete spec examples hold; the query
string is appended after the joined URL; only entries whose value is not
`undefined` are rendered (coerced to string); and the
`{page: 1, search: undefined}` example produces `?page=1` with no `search`
key. -/
theorem C5_url_construction :
    (∀ base path : String,
       endsWithSlash base = false → startsWithSlash path = false →
       buildUrl base path [] = base ++ "/" ++ path ∧
       buildUrl (base ++ "/") path [] = base ++ "/" ++ path ∧
       buildUrl base ("/" ++ path) [] = base ++ "/" ++ path ∧
       buildUrl (base ++ "/") ("/" ++ path) [] = base ++ "/" ++ path) ∧
    buildUrl "http://x/" "users" [] = "http://x/users" ∧
    buildUrl "http://x" "/users" [] = "http://x/users" ∧
    (∀ (base path : String) (q : List (String × Option QueryValue)),
       buildUrl base path q = buildUrl base path [] ++ renderQuery q) ∧
    (∀ (k : String) (rest : List (String × Option QueryValue)),
       renderQuery ((k, none) :: rest) = renderQuery rest) ∧
    buildUrl "http://x" "users"
        [("page", some (QueryValue.num 1)), ("search", none)] =
      "http://x/users?page=1" := by
  refine ⟨?_, rfl, rfl, ?_, ?_, rfl⟩
  · intro base path hb hp
    have hsb : stripTrailingSlash base = base := by
      unfold stripTrailingSlash
      rw [hb]
      simp
    have hsp : ensureLeadingSlash path = "/" ++ path := by
      unfold ensureLeadingSlash
      rw [hp]
      simp
    have hsp' : ensureLeadingSlash ("/" ++ path) = "/" ++ path := by
      unfold ensureLeadingSlash
      rw [startsWithSlash_cons_slash, if_pos rfl]
    refine ⟨?_, ?_, ?_, ?_⟩
    · unfold buildUrl
      rw [hsb, hsp, renderQuery]
      simp [String.append_assoc]
    · unfold buildUrl
      rw [stripTrailingSlash_append_slash, hsp, renderQuery]
      simp [String.append_assoc]
    · unfold buildUrl
      rw [hsb, hsp', renderQuery]
      simp [String.append_assoc]
    · unfold buildUrl
      rw [stripTrailingSlash_append_slash, hsp', renderQuery]
      simp [String.append_assoc]
  · intro base path q
    unfold buildUrl
    have h0 : renderQuery ([] : List (String × Option QueryValue)) = "" := rfl
    rw [h0]
    simp [String.append_empty, String.append_assoc]
  · intro k rest
    unfold renderQuery
    rfl

/-- Concrete instance of C5's universal part: joining "http://x" and
"users" in all four slash variants yields "http://x/users". -/
theorem C5_url_construction_witness :
    buildUrl "http://x" "users" [] = "http://x" ++ "/" ++ "users" ∧
    buildUrl ("http://x" ++ "/") ("/" ++ "users") [] = "http://x" ++ "/" ++ "users" := by
  have h := C5_url_construction.1 "http://x" "users" (by decide) (by decide)
  exact ⟨h.1, h.2.2.2⟩

/-- The fixed enumeration of backend kinds (`type ServiceKind`). -/
inductive ServiceKind
  | python
  | bun
  | java
  | nestjs
  | node
  | go
deriving DecidableEq, Repr

/-- JS string name of a service kind (template interpolation `${name}`). -/
def serviceKindName : ServiceKind → String
  | ServiceKind.python => "python"
  | ServiceKind.bun => "bun"
  | ServiceKind.java => "java"
  | ServiceKind.nestjs => "nestjs"
  | ServiceKind.node => "node"
  | ServiceKind.go => "go"

/-- Embedding of `ENV_VAR_MAP` (services index, lines 302-309). -/
def envVarMap : ServiceKind → String
  | ServiceKind.python => "HALOLIGHT_API_PYTHON_URL"
  | ServiceKind.bun => "HALOLIGHT_API_BUN_URL"
  | ServiceKind.java => "HALOLIGHT_API_JAVA_URL"
  | ServiceKind.nestjs => "HALOLIGHT_API_NESTJS_URL"
  | ServiceKind.node => "HALOLIGHT_API_NODE_URL"
  | ServiceKind.go => "HALOLIGHT_API_GO_URL"

/-- Embedding of `DEFAULT_PRIORITY` (lower is higher priority). -/
def defaultPriorityMap : ServiceKind → Nat
  | ServiceKind.nestjs => 1
  | ServiceKind.python => 2
  | ServiceKind.bun => 3
  | ServiceKind.java => 4
  | ServiceKind.node => 5
  | ServiceKind.go => 6

/-- `DEFAULT_HEALTH_PATH`. -/
def DEFAULT_HEALTH_PATH : String := "/health"

/-- Embedding of `ServiceConfig`. -/
structure ServiceConfig where
  name : ServiceKind
  baseUrl : String
  healthPath : Option String
  priority : Option Nat
deriving DecidableEq, Repr

/-- The iteration order of `Object.keys(ENV_VAR_MAP)` in `loadServices`:
JS object-literal insertion order. -/
def serviceKindList : List ServiceKind :=
  [ServiceKind.python, ServiceKind.bun, ServiceKind.java,
   ServiceKind.nestjs, ServiceKind.node, ServiceKind.go]

/-- Embedding of `loadServices` (lines 333-349): the environment is the
`process.env` lookup; a kind is configured when its variable holds a truthy
(non-empty) string, with one trailing slash stripped from the base URL.
The resulting list stands for the insertion-ordered `Map`. -/
def loadServices (env : String → Option String) : List ServiceConfig :=
  serviceKindList.filterMap (fun kind =>
    match env (envVarMap kind) with
    | some baseUrl =>
        if baseUrl = "" then none
        else some { name := kind, baseUrl := stripTrailingSlash baseUrl,
                    healthPath := some DEFAULT_HEALTH_PATH,
                    priority := some (defaultPriorityMap kind) }
    | none => none)

/-- `a.priority ?? 99` in the sort comparator. -/
def effectivePriority (c : ServiceConfig) : Nat :=
  c.priority.getD 99

/-- Stable insertion of one element into a priority-sorted list: an element
goes before the first strictly-later-or-equal... it goes before the first
element with strictly greater-or-equal priority only when strictly smaller
— an equal-priority element stays after nothing and before nothing it
preceded; placing `a` (which precedes the rest in the original order)
before the first element of equal priority keeps the sort stable, matching
the guaranteed-stable `Array.prototype.sort`. -/
def insertByPriority (a : ServiceConfig) : List ServiceConfig → List ServiceConfig
  | [] => [a]
  | b :: rest =>
      if effectivePriority a ≤ effectivePriority b then a :: b :: rest
      else b :: insertByPriority a rest

/-- Behaviour of `Array.from(services.values()).sort((a, b) =>
(a.priority ?? 99) - (b.priority ?? 99))`: a stable sort ascending by
effective priority. -/
def sortByPriority : List ServiceConfig → List ServiceConfig
  | [] => []
  | a :: rest => insertByPriority a (sortByPriority rest)

/-- The earliest element attaining the minimal effective priority: the
specification's reading of "first after a stable ascending sort". -/
def firstMinByPriority : List ServiceConfig → Option ServiceConfig
  | [] => none
  | a :: rest =>
      match firstMinByPriority rest with
      | none => some a
      | some b => if effectivePriority a ≤ effectivePriority b then some a else some b

/-- Embedding of `ServiceRegistry.findDefaultService` (lines 375-383). -/
def findDefaultService (services : List ServiceConfig) : Option ServiceKind :=
  if services.isEmpty then none
  else (sortByPriority services).head?.map ServiceConfig.name

/-- `services.get(name)`: lookup in the insertion-ordered map. -/
def lookupService (services : List ServiceConfig) (name : ServiceKind) :
    Option ServiceConfig :=
  services.find? (fun s => s.name == name)

/-- `clientCache.get(name)`: client instances are identified by the
allocation counter value they were created with (two clients are the same
JS object exactly when their identifiers are equal). -/
def cacheLookup (cache : List (ServiceKind × Nat)) (name : ServiceKind) : Option Nat :=
  (cache.find? (fun p => p.1 == name)).map Prod.snd

/-- Partial `HttpClientConfig` overrides accepted by `getClient`. -/
structure HttpClientOverrides where
  baseUrl : Option String := none
  defaultHeaders : Option HeaderMap := none
  timeoutMs : Option Nat := none
  retries : Option Nat := none

/-- The registry's mutable state: the config map, the derived default, the
module-level client cache, and the allocation counter standing for JS
object identity of constructed clients. -/
structure RegistryState where
  services : List ServiceConfig
  defaultService : Option ServiceKind
  clientCache : List (ServiceKind × Nat)
  nextClientId : Nat
deriving DecidableEq, Repr

/-- The `ServiceRegistry` constructor (lines 358-361) together with the
initially empty module-level `clientCache`. -/
def initRegistry (env : String → Option String) : RegistryState :=
  ⟨loadServices env, findDefaultService (loadServices env), [], 0⟩

/-- Embedding of `ServiceRegistry.reload` (lines 366-370): clear the
cache, re-read the services, recompute the default. -/
def RegistryState.reload (st : RegistryState) (env : String → Option String) :
    RegistryState :=
  ⟨loadServices env, findDefaultService (loadServices env), [], st.nextClientId⟩

/-- The configuration error thrown by `getClient` for an unconfigured
service (lines 417-419). -/
def notConfiguredMessage (name : ServiceKind) : String :=
  "Service \"" ++ serviceKindName name ++ "\" is not configured. Set " ++
    envVarMap name ++ " environment variable."

/-- Embedding of `ServiceRegistry.getClient` (lines 409-434): a cached
client is returned as-is when no overrides are supplied; otherwise the
service must be configured, a fresh client is constructed, and it is
cached only when no overrides were supplied. -/
def getClient (st : RegistryState) (name : ServiceKind)
    (options : Option HttpClientOverrides) : Except String (Nat × RegistryState) :=
  match cacheLookup st.clientCache name, options with
  | some cached, none => Except.ok (cached, st)
  | _, _ =>
      match lookupService st.services name with
      | none => Except.error (notConfiguredMessage name)
      | some _ =>
          let client := st.nextClientId
          match options with
          | none =>
              Except.ok (client,
                { st with clientCache := st.clientCache ++ [(name, client)],
                          nextClientId := st.nextClientId + 1 })
          | some _ =>
              Except.ok (client, { st with nextClientId := st.nextClientId + 1 })

/-- Embedding of `ServiceRegistry.getDefaultClient` (lines 439-445). -/
def getDefaultClient (st : RegistryState) (options : Option HttpClientOverrides) :
    Except String (Nat × RegistryState) :=
  match st.defaultService with
  | none =>
      Except.error "No backend services configured. Set at least one HALOLIGHT_API_*_URL."
  | some name => getClient st name options

/-- A concrete environment configuring the go, nestjs and python backends
(their default priorities are 6, 1 and 2 respectively). -/
def envGNP : String → Option String := fun v =>
  if v = "HALOLIGHT_API_GO_URL" then some "http://go.local"
  else if v = "HALOLIGHT_API_NESTJS_URL" then some "http://nest.local"
  else if v = "HALOLIGHT_API_PYTHON_URL" then some "http://py.local"
  else none

/-- Appending a fresh entry for `name` to a cache holding no entry for
`name` makes the lookup return the new client. -/
theorem cacheLookup_append_self (cache : List (ServiceKind × Nat)) (name : ServiceKind)
    (id : Nat) (h : cacheLookup cache name = none) :
    cacheLookup (cache ++ [(name, id)]) name = some id := by
  unfold cacheLookup at h ⊢
  have hf : cache.find? (fun p => p.1 == name) = none := by
    cases hc : cache.find? (fun p => p.1 == name) with
    | none => rfl
    | some p => rw [hc] at h; simp at h
  rw [List.find?_append, hf]
  simp

/-- C6: client caching identity. When `name` is configured and not yet
cached, the first no-overrides `getClient` creates a client and stores it
in the cache; every further no-overrides call returns the identical client
(and leaves the state unchanged); a call with overrides returns a freshly
constructed, distinct client that is never stored in the cache. -/
theorem C6_client_caching (st : RegistryState) (name : ServiceKind) (svc : ServiceConfig)
    (h1 : cacheLookup st.clientCache name = none)
    (h2 : lookupService st.services name = some svc) :
    ∃ c1 st1,
      getClient st name none = Except.ok (c1, st1) ∧
      st1.clientCache = st.clientCache ++ [(name, c1)] ∧
      getClient st1 name none = Except.ok (c1, st1) ∧
      (∀ o : HttpClientOverrides, ∃ c2 st2,
         getClient st1 name (some o) = Except.ok (c2, st2) ∧
         c2 ≠ c1 ∧ st2.clientCache = st1.clientCache) := by
  refine ⟨st.nextClientId,
    { st with clientCache := st.clientCache ++ [(name, st.nextClientId)],
              nextClientId := st.nextClientId + 1 }, ?_, rfl, ?_, ?_⟩
  · simp only [getClient, h1, h2]
  · have hc : cacheLookup (st.clientCache ++ [(name, st.nextClientId)]) name
        = some st.nextClientId := cacheLookup_append_self _ _ _ h1
    simp only [getClient, hc]
  · intro o
    have hc : cacheLookup (st.clientCache ++ [(name, st.nextClientId)]) name
        = some st.nextClientId := cacheLookup_append_self _ _ _ h1
    refine ⟨st.nextClientId + 1,
      { st with clientCache := st.clientCache ++ [(name, st.nextClientId)],
                nextClientId := st.nextClientId + 1 + 1 }, ?_, by omega, rfl⟩
    simp only [getClient, hc, h2]

/-- Concrete instance of C6 at the `python` service of a three-service
environment. -/
theorem C6_client_caching_witness :
    ∃ c1 st1,
      getClient (initRegistry envGNP) ServiceKind.python none = Except.ok (c1, st1) ∧
      st1.clientCache = (initRegistry envGNP).clientCache ++ [(ServiceKind.python, c1)] ∧
      getClient st1 ServiceKind.python none = Except.ok (c1, st1) ∧
      (∀ o : HttpClientOverrides, ∃ c2 st2,
         getClient st1 ServiceKind.python (some o) = Except.ok (c2, st2) ∧
         c2 ≠ c1 ∧ st2.clientCache = st1.clientCache) :=
  C6_client_caching (initRegistry envGNP) ServiceKind.python
    ⟨ServiceKind.python, "http://py.local", some "/health", some 2⟩
    (by decide) (by decide)

/-- Membership is preserved by stable insertion. -/
theorem mem_insertByPriority (x a : ServiceConfig) (l : List ServiceConfig) :
    x ∈ insertByPriority a l ↔ x = a ∨ x ∈ l := by
  induction l with
  | nil => simp [insertByPriority]
  | cons b rest ih =>
      unfold insertByPriority
      by_cases hle : effectivePriority a ≤ effectivePriority b
      · simp [hle]
      · simp only [hle, if_false, List.mem_cons, ih]
        tauto

/-- Membership is preserved by the stable sort. -/
theorem mem_sortByPriority (x : ServiceConfig) (l : List ServiceConfig) :
    x ∈ sortByPriority l ↔ x ∈ l := by
  induction l with
  | nil => simp [sortByPriority]
  | cons a rest ih =>
      unfold sortByPriority
      rw [mem_insertByPriority]
      simp [ih]

/-- A service looked up among the configured ones exists exactly when some
config with that name is a member. -/
theorem lookupService_isSome (services : List ServiceConfig) (name : ServiceKind) :
    (lookupService services name).isSome = true ↔
      ∃ c, c ∈ services ∧ c.name = name := by
  unfold lookupService
  rw [List.find?_isSome]
  constructor
  · rintro ⟨c, hc, hn⟩
    exact ⟨c, hc, by simpa using hn⟩
  · rintro ⟨c, hc, hn⟩
    exact ⟨c, hc, by simpa using hn⟩

/-- A service whose environment variable is unset is absent from the
loaded configuration. -/
theorem lookupService_loadServices_none (env : String → Option String)
    (name : ServiceKind) (h : env (envVarMap name) = none) :
    lookupService (loadServices env) name = none := by
  unfold lookupService loadServices
  rw [List.find?_eq_none]
  intro x hx
  rw [List.mem_filterMap] at hx
  obtain ⟨kind, -, hf⟩ := hx
  intro hbeq
  have hxname : x.name = name := by simpa using hbeq
  cases he : env (envVarMap kind) with
  | none => rw [he] at hf; exact Option.noConfusion hf
  | some u =>
      rw [he] at hf
      by_cases hu : u = ""
      · rw [hu] at hf
        simp at hf
      · simp only [hu, if_false] at hf
        have hname : kind = x.name := congrArg ServiceConfig.name (Option.some.inj hf)
        have hkind : kind = name := hname.trans hxname
        rw [hkind, h] at he
        exact Option.noConfusion he

/-- Invariant: the derived default service name is `none` exactly when no
services are configured, and otherwise names a configured service. -/
def defaultInvariant (st : RegistryState) : Prop :=
  (st.defaultService = none → st.services = []) ∧
  (st.services = [] → st.defaultService = none) ∧
  (∀ n, st.defaultService = some n → (lookupService st.services n).isSome = true)

/-- Invariant: the client cache never holds a client for a service that is
not currently configured. -/
def cacheInvariant (st : RegistryState) : Prop :=
  ∀ p ∈ st.clientCache, (lookupService st.services p.1).isSome = true

/-- The derived default of any loaded service list satisfies the default
invariant shape. -/
theorem findDefaultService_sound (services : List ServiceConfig) :
    (findDefaultService services = none → services = []) ∧
    (∀ n, findDefaultService services = some n →
       (lookupService services n).isSome = true) := by
  constructor
  · intro h
    unfold findDefaultService at h
    by_cases he : services.isEmpty
    · exact List.isEmpty_iff.mp he
    · rw [if_neg he] at h
      cases services with
      | nil => rfl
      | cons a rest =>
          exfalso
          unfold sortByPriority at h
          cases hs : insertByPriority a (sortByPriority rest) with
          | nil =>
              have : a ∈ insertByPriority a (sortByPriority rest) :=
                (mem_insertByPriority a a (sortByPriority rest)).mpr (Or.inl rfl)
              rw [hs] at this
              exact List.not_mem_nil a this
          | cons b s => rw [hs] at h; simp at h
  · intro n h
    unfold findDefaultService at h
    by_cases he : services.isEmpty
    · rw [if_pos he] at h; exact Option.noConfusion h
    · rw [if_neg he] at h
      cases hs : (sortByPriority services).head? with
      | none => rw [hs] at h; exact Option.noConfusion h
      | some c =>
          rw [hs] at h
          have hcn : c.name = n := Option.some.inj h
          have hcmem : c ∈ sortByPriority services := by
            cases hl : sortByPriority services with
            | nil => rw [hl] at hs; simp at hs
            | cons b s =>
                rw [hl] at hs
                have hbc : b = c := Option.some.inj hs
                rw [← hbc]
                exact List.mem_cons_self b s
          have : c ∈ services := (mem_sortByPriority c services).mp hcmem
          exact (lookupService_isSome services n).mpr ⟨c, this, hcn⟩

/-- An uncached, unconfigured service makes `getClient` fail with the
configuration error, with or without overrides. -/
theorem getClient_not_configured (st : RegistryState) (name : ServiceKind)
    (o : Option HttpClientOverrides)
    (hc : cacheLookup st.clientCache name = none)
    (hl : lookupService st.services name = none) :
    getClient st name o = Except.error (notConfiguredMessage name) := by
  unfold getClient
  rw [hc, hl]

/-- C7: registry state invariants. Construction and `reload` establish the
default- and cache-invariants; `getClient` preserves the cache invariant
and never changes the config map or the derived default; and after a
`reload` under an environment where a service's variable is unset, any
`getClient` for that service (with or without overrides, cached before or
not) fails with the configuration error, whose message contains the
expected environment variable name. -/
theorem C7_registry_invariants :
    (∀ env, defaultInvariant (initRegistry env) ∧ cacheInvariant (initRegistry env)) ∧
    (∀ (st : RegistryState) (env : String → Option String),
       defaultInvariant (st.reload env) ∧ cacheInvariant (st.reload env)) ∧
    (∀ (st : RegistryState) (name : ServiceKind) (o : Option HttpClientOverrides)
       (c : Nat) (st' : RegistryState),
       cacheInvariant st → getClient st name o = Except.ok (c, st') →
       cacheInvariant st' ∧ st'.services = st.services ∧
       st'.defaultService = st.defaultService) ∧
    (∀ (st : RegistryState) (env : String → Option String) (name : ServiceKind)
       (o : Option HttpClientOverrides),
       env (envVarMap name) = none →
       getClient (st.reload env) name o = Except.error (notConfiguredMessage name)) ∧
    (∀ name : ServiceKind, ∃ pre post : String,
       notConfiguredMessage name = pre ++ envVarMap name ++ post) := by
  refine ⟨?_, ?_, ?_, ?_, ?_⟩
  · intro env
    refine ⟨⟨?_, ?_, ?_⟩, ?_⟩
    · intro hd
      exact (findDefaultService_sound (loadServices env)).1 hd
    · intro hs
      have hs' : loadServices env = [] := hs
      show findDefaultService (loadServices env) = none
      rw [hs']
      rfl
    · intro n hd
      exact (findDefaultService_sound (loadServices env)).2 n hd
    · intro p hp
      exact absurd hp (List.not_mem_nil p)
  · intro st env
    refine ⟨⟨?_, ?_, ?_⟩, ?_⟩
    · intro hd
      exact (findDefaultService_sound (loadServices env)).1 hd
    · intro hs
      have hs' : loadServices env = [] := hs
      show findDefaultService (loadServices env) = none
      rw [hs']
      rfl
    · intro n hd
      exact (findDefaultService_sound (loadServices env)).2 n hd
    · intro p hp
      exact absurd hp (List.not_mem_nil p)
  · intro st name o c st' hcache hok
    unfold getClient at hok
    cases hc : cacheLookup st.clientCache name with
    | some cached =>
        cases o with
        | none =>
            rw [hc] at hok
            simp only [Except.ok.injEq, Prod.mk.injEq] at hok
            obtain ⟨-, hst⟩ := hok
            rw [← hst]
            exact ⟨hcache, rfl, rfl⟩
        | some ov =>
            rw [hc] at hok
            cases hl : lookupService st.services name with
            | none => rw [hl] at hok; exact Except.noConfusion hok
            | some svc =>
                rw [hl] at hok
                simp only [Except.ok.injEq, Prod.mk.injEq] at hok
                obtain ⟨-, hst⟩ := hok
                rw [← hst]
                exact ⟨hcache, rfl, rfl⟩
    | none =>
        rw [hc] at hok
        cases hl : lookupService st.services name with
        | none => rw [hl] at hok; exact Except.noConfusion hok
        | some svc =>
            rw [hl] at hok
            cases o with
            | none =>
                simp only [Except.ok.injEq, Prod.mk.injEq] at hok
                obtain ⟨-, hst⟩ := hok
                rw [← hst]
                refine ⟨?_, rfl, rfl⟩
                intro p hp
                rw [List.mem_append] at hp
                cases hp with
                | inl hp => exact hcache p hp
                | inr hp =>
                    have hpn : p = (name, st.nextClientId) := by simpa using hp
                    rw [hpn]
                    show (lookupService st.services name).isSome = true
                    rw [hl]
                    rfl
            | some ov =>
                simp only [Except.ok.injEq, Prod.mk.injEq] at hok
                obtain ⟨-, hst⟩ := hok
                rw [← hst]
                exact ⟨hcache, rfl, rfl⟩
  · intro st env name o h
    exact getClient_not_configured (st.reload env) name o rfl
      (lookupService_loadServices_none env name h)
  · intro name
    exact ⟨"Service \"" ++ serviceKindName name ++ "\" is not configured. Set ",
      " environment variable.", rfl⟩

/-- Concrete instance of C7: a registry built with go/nestjs/python
configured is reloaded under an environment where python's variable is
unset; `getClient` for python then fails with the configuration error even
though python's client was cached before the reload. -/
theorem C7_registry_invariants_witness :
    getClient ((initRegistry envGNP).reload
        (fun v => if v = "HALOLIGHT_API_PYTHON_URL" then none else envGNP v))
      ServiceKind.python none =
      Except.error (notConfiguredMessage ServiceKind.python) ∧
    defaultInvariant (initRegistry envGNP) := by
  constructor
  · exact C7_registry_invariants.2.2.2.1 (initRegistry envGNP)
      (fun v => if v = "HALOLIGHT_API_PYTHON_URL" then none else envGNP v)
      ServiceKind.python none (by decide)
  · exact (C7_registry_invariants.1 envGNP).1

/-- The head of a stable insertion: the inserted element when its priority
is no larger than the old head's, else the old head. -/
theorem head_insertByPriority (a b : ServiceConfig) (s : List ServiceConfig) :
    (insertByPriority a (b :: s)).head? =
      (if effectivePriority a ≤ effectivePriority b then some a else some b) := by
  unfold insertByPriority
  by_cases hle : effectivePriority a ≤ effectivePriority b
  · rw [if_pos hle, if_pos hle]
    rfl
  · rw [if_neg hle, if_neg hle]
    rfl

/-- The head of the stable sort is the earliest minimal-priority element. -/
theorem head_sortByPriority (l : List ServiceConfig) :
    (sortByPriority l).head? = firstMinByPriority l := by
  induction l with
  | nil => rfl
  | cons a rest ih =>
      unfold sortByPriority firstMinByPriority
      rw [← ih]
      cases hs : sortByPriority rest with
      | nil => rfl
      | cons b s =>
          rw [head_insertByPriority a b s]
          rfl

/-- The earliest minimal element is a member of the list. -/
theorem firstMinByPriority_mem (l : List ServiceConfig) (c : ServiceConfig)
    (h : firstMinByPriority l = some c) : c ∈ l := by
  induction l with
  | nil => exact Option.noConfusion h
  | cons a rest ih =>
      unfold firstMinByPriority at h
      cases hm : firstMinByPriority rest with
      | none =>
          rw [hm] at h
          have : a = c := Option.some.inj h
          rw [← this]
          exact List.mem_cons_self a rest
      | some b =>
          rw [hm] at h
          have h' : (if effectivePriority a ≤ effectivePriority b
              then some a else some b) = some c := h
          by_cases hle : effectivePriority a ≤ effectivePriority b
          · rw [if_pos hle] at h'
            have : a = c := Option.some.inj h'
            rw [← this]
            exact List.mem_cons_self a rest
          · rw [if_neg hle] at h'
            have hbc : b = c := Option.some.inj h'
            rw [hbc] at hm
            exact List.mem_cons_of_mem a (ih hm)

/-- The earliest element attaining the minimum is picked: anything before
it is strictly worse, anything after it is no better. -/
theorem firstMinByPriority_first (l1 l2 : List ServiceConfig) (c : ServiceConfig)
    (h1 : ∀ x ∈ l1, effectivePriority c < effectivePriority x)
    (h2 : ∀ x ∈ l2, effectivePriority c ≤ effectivePriority x) :
    firstMinByPriority (l1 ++ c :: l2) = some c := by
  induction l1 with
  | nil =>
      have hnil : ([] : List ServiceConfig) ++ c :: l2 = c :: l2 := List.nil_append _
      rw [hnil]
      unfold firstMinByPriority
      cases hm : firstMinByPriority l2 with
      | none => rfl
      | some b =>
          have hble : effectivePriority c ≤ effectivePriority b :=
            h2 b (firstMinByPriority_mem l2 b hm)
          show (if effectivePriority c ≤ effectivePriority b
            then some c else some b) = some c
          rw [if_pos hble]
  | cons x l1' ih =>
      have hx : effectivePriority c < effectivePriority x :=
        h1 x (List.mem_cons_self x l1')
      have ih' := ih (fun y hy => h1 y (List.mem_cons_of_mem x hy))
      rw [List.cons_append]
      unfold firstMinByPriority
      rw [ih']
      show (if effectivePriority x ≤ effectivePriority c
        then some x else some c) = some c
      rw [if_neg (show ¬effectivePriority x ≤ effectivePriority c by omega)]

/-- C8: default-service derivation. `findDefaultService` returns the name
of the earliest configured service attaining the minimal effective
priority (absent priorities count as 99; ties are broken by position,
i.e. the sort is stable); in particular any service strictly preceded only
by higher-priority entries and followed only by no-better entries wins;
and with go/nestjs/python configured (priorities 6, 1, 2), the default is
nestjs and `getDefaultClient` constructs and caches the nestjs client. -/
theorem C8_default_service_derivation :
    (∀ services : List ServiceConfig,
       findDefaultService services =
         (firstMinByPriority services).map ServiceConfig.name) ∧
    (∀ (l1 l2 : List ServiceConfig) (c : ServiceConfig),
       (∀ x ∈ l1, effectivePriority c < effectivePriority x) →
       (∀ x ∈ l2, effectivePriority c ≤ effectivePriority x) →
       findDefaultService (l1 ++ c :: l2) = some c.name) ∧
    (initRegistry envGNP).defaultService = some ServiceKind.nestjs ∧
    ((getDefaultClient (initRegistry envGNP) none).toOption.map
       (fun p => (p.1, p.2.clientCache))) =
      some (0, [(ServiceKind.nestjs, 0)]) := by
  have hmain : ∀ services : List ServiceConfig,
      findDefaultService services =
        (firstMinByPriority services).map ServiceConfig.name := by
    intro services
    cases services with
    | nil => rfl
    | cons a rest =>
        unfold findDefaultService
        rw [if_neg (by simp)]
        rw [head_sortByPriority]
  refine ⟨hmain, ?_, by decide, by decide⟩
  intro l1 l2 c h1 h2
  rw [hmain, firstMinByPriority_first l1 l2 c h1 h2]
  rfl

/-- Concrete instance of C8: among configs at priorities 6 (go),
1 (nestjs), 2 (python) listed in that order, the nestjs config wins. -/
theorem C8_default_service_derivation_witness :
    findDefaultService
        [⟨ServiceKind.go, "http://go.local", some "/health", some 6⟩,
         ⟨ServiceKind.nestjs, "http://nest.local", some "/health", some 1⟩,
         ⟨ServiceKind.python, "http://py.local", some "/health", some 2⟩] =
      some ServiceKind.nestjs := by
  have h := C8_default_service_derivation.2.1
    [⟨ServiceKind.go, "http://go.local", some "/health", some 6⟩]
    [⟨ServiceKind.python, "http://py.local", some "/health", some 2⟩]
    ⟨ServiceKind.nestjs, "http://nest.local", some "/health", some 1⟩
    (by intro x hx; fin_cases hx; decide)
    (by intro x hx; fin_cases hx; decide)
  exact h

/-- The observable parameters of the HTTP call issued by `checkHealth`:
the method, the path, and the per-call timeout and retry overrides. -/
structure IssuedCall where
  method : HttpMethod
  path : String
  timeoutMs : Option Nat
  retries : Option Nat
deriving DecidableEq, Repr

/-- The `{healthy, latencyMs}` record returned by `checkHealth`
(`latencyMs` is `-1` for an unconfigured service, else the elapsed time). -/
structure HealthCheckResult where
  healthy : Bool
  latencyMs : Int
deriving DecidableEq, Repr

/-- Whether an `Except` computation succeeded. -/
def isOkB {ε α : Type} : Except ε α → Bool
  | Except.ok _ => true
  | Except.error _ => false

/-- Embedding of `ServiceRegistry.checkHealth` (lines 457-474). An
unknown service short-circuits to `{healthy: false, latencyMs: -1}` with
no HTTP request. Otherwise `getClient(name)` (no overrides — it may
populate the cache) is obtained and a GET of the service's health path is
issued with `timeoutMs: 3000` and `retries: 0`, through `request` with the
client-default retries 2 overridden per-call and no response schema; both
the thrown-error path and the success path are caught, so the function is
total: `healthy` reflects success and `latencyMs` is the elapsed clock
time (abstracted as `elapsed`). The `getClient` error branch mirrors the
surrounding `try`/`catch` and is unreachable for a configured service. -/
def checkHealth (st : RegistryState) (name : ServiceKind)
    (outcomes : Nat → FetchOutcome) (elapsed : Nat) :
    HealthCheckResult × RegistryState × Option IssuedCall :=
  match lookupService st.services name with
  | none => (⟨false, -1⟩, st, none)
  | some service =>
      match getClient st name none with
      | Except.error _ => (⟨false, (elapsed : Int)⟩, st, none)
      | Except.ok (_, st') =>
          let call : IssuedCall :=
            ⟨HttpMethod.GET, jsStringOr service.healthPath DEFAULT_HEALTH_PATH,
             some 3000, some 0⟩
          match (request false (some 0) 2 HttpMethod.GET outcomes).result with
          | Except.ok _ => (⟨true, (elapsed : Int)⟩, st', some call)
          | Except.error _ => (⟨false, (elapsed : Int)⟩, st', some call)

/-- C9: for a configured service, `checkHealth` issues a single,
non-retried (retry count forced to 0) GET of the service's health path
with a 3000ms timeout, and returns `{healthy: true, latencyMs: elapsed}`
on success and `{healthy: false, latencyMs: elapsed}` on any failure —
never an exception (the embedding is a total function; every failing
branch returns a `HealthCheckResult`). -/
theorem C9_check_health (st : RegistryState) (name : ServiceKind)
    (svc : ServiceConfig) (outcomes : Nat → FetchOutcome) (elapsed : Nat)
    (h : lookupService st.services name = some svc) :
    ∃ st' : RegistryState,
      checkHealth st name outcomes elapsed =
        (⟨isOkB (request false (some 0) 2 HttpMethod.GET outcomes).result,
          (elapsed : Int)⟩,
         st',
         some ⟨HttpMethod.GET, jsStringOr svc.healthPath DEFAULT_HEALTH_PATH,
               some 3000, some 0⟩) ∧
      (request false (some 0) 2 HttpMethod.GET outcomes).attemptsMade = 1 := by
  have hattempts : (request false (some 0) 2 HttpMethod.GET outcomes).attemptsMade = 1 := by
    rw [request_zero_retries]
  cases hc : cacheLookup st.clientCache name with
  | some cached =>
      refine ⟨st, ?_, hattempts⟩
      unfold checkHealth
      rw [h]
      have hcl : getClient st name none = Except.ok (cached, st) := by
        simp only [getClient, hc]
      rw [hcl]
      cases hr : (request false (some 0) 2 HttpMethod.GET outcomes).result with
      | ok v => rfl
      | error e => rfl
  | none =>
      refine ⟨{ st with clientCache := st.clientCache ++ [(name, st.nextClientId)],
                        nextClientId := st.nextClientId + 1 }, ?_, hattempts⟩
      unfold checkHealth
      rw [h]
      have hcl : getClient st name none = Except.ok (st.nextClientId,
          { st with clientCache := st.clientCache ++ [(name, st.nextClientId)],
                    nextClientId := st.nextClientId + 1 }) := by
        simp only [getClient, hc, h]
      rw [hcl]
      cases hr : (request false (some 0) 2 HttpMethod.GET outcomes).result with
      | ok v => rfl
      | error e => rfl

/-- Concrete instance of C9: a backend answering HTTP 500 on the health
path yields `{healthy: false, latencyMs: elapsed}` with the forced
single-attempt GET, rather than an exception. -/
theorem C9_check_health_witness :
    ∃ st' : RegistryState,
      checkHealth (initRegistry envGNP) ServiceKind.python
          (fun _ => FetchOutcome.response 500 (ParsedBody.json none none) true) 7 =
        (⟨false, (7 : Int)⟩, st',
         some ⟨HttpMethod.GET, "/health", some 3000, some 0⟩) ∧
      (request false (some 0) 2 HttpMethod.GET
        (fun _ => FetchOutcome.response 500 (ParsedBody.json none none) true)).attemptsMade
        = 1 := by
  obtain ⟨st', h1, h2⟩ := C9_check_health (initRegistry envGNP) ServiceKind.python
    ⟨ServiceKind.python, "http://py.local", some "/health", some 2⟩
    (fun _ => FetchOutcome.response 500 (ParsedBody.json none none) true) 7 (by decide)
  refine ⟨st', ?_, h2⟩
  rw [h1]
  rfl

/-- C10 (implicit): for a service name that is not currently configured,
`checkHealth` returns `{healthy: false, latencyMs: -1}` immediately — no
HTTP request is issued (no `IssuedCall` is produced), no error is thrown,
and the registry state is unchanged. -/
theorem C10_check_health_unconfigured (st : RegistryState) (name : ServiceKind)
    (outcomes : Nat → FetchOutcome) (elapsed : Nat)
    (h : lookupService st.services name = none) :
    checkHealth st name outcomes elapsed = (⟨false, -1⟩, st, none) := by
  unfold checkHealth
  rw [h]

/-- Concrete instance of C10: `java` is not configured in the go/nestjs/
python environment, so its health check reports `-1` latency without any
request. -/
theorem C10_check_health_unconfigured_witness :
    checkHealth (initRegistry envGNP) ServiceKind.java
        (fun _ => FetchOutcome.abortError) 5 =
      (⟨false, -1⟩, initRegistry envGNP, none) :=
  C10_check_health_unconfigured (initRegistry envGNP) ServiceKind.java
    (fun _ => FetchOutcome.abortError) 5 (by decide)

end Halolight
